import Mathlib

/-!
Verification of the simulation engine of a browser-based Monte Carlo casino
simulator (TypeScript sources `src/app/lib/simulation.ts` and
`src/app/page.tsx`).

The embedding conventions:

* JavaScript numbers that hold integers are modelled as `Nat`.  JS number
  arithmetic on integers is exact below `2^53`; all integer values arising in
  the program (RNG state over the at most 1000 draws of a session, seeds,
  loop counters) stay far below that bound, so `Nat` arithmetic is a faithful
  model.  A JS bitwise operation (`^`, `|`, `>>>`, `Math.imul`) coerces its
  operands with ToInt32/ToUint32, i.e. it sees its operands modulo `2^32`;
  this is made explicit with `% 4294967296`.

* JS numbers used as real quantities (draws in `[0,1)`, bet sizes, payouts,
  cumulative nets, probabilities) are modelled as `ℚ`.  The numeric literals
  of the outcome tables are taken at their decimal value.

* A `rand: () => number` closure obtained from `createSeededRandom` is a
  deterministic stream; it is modelled as the function `ℕ → ℚ` sending the
  0-indexed call number to the value of that call.  Every spin of the two
  game loops makes exactly one call, so spin `i` consumes draw `i`.

* `Math.sqrt` has no exact counterpart on `ℚ`; the summary therefore records
  the variance (the square of the `volatility` field of the source).  No
  claim concerns this field.
-/

namespace GamblingSim

/-- `n >>> 0` in JS: ToUint32 of a non-negative integer, i.e. reduction
modulo `2^32`. -/
def toUint32 (n : Nat) : Nat := n % 4294967296

/-- `Math.imul a b`: 32-bit truncating multiplication (operands are already
reduced mod `2^32` wherever this is used below). -/
def imul (a b : Nat) : Nat := (a * b) % 4294967296

/-- Body of the closure returned by `createSeededRandom`, as a function of
the current value of the JS variable `t` (after the `t += 0x6d2b79f5`
update).  `t` itself is an exact integer in JS — the code never wraps it —
but every bitwise operator coerces it mod `2^32`, hence `tw`.  Returns the
integer numerator of the draw (the `(... ) >>> 0` value). -/
def mulberryMix (t : Nat) : Nat :=
  let tw := toUint32 t
  let r1 := imul (tw ^^^ (tw >>> 15)) (1 ||| tw)
  let r2 := r1 ^^^ toUint32 (r1 + imul (r1 ^^^ (r1 >>> 7)) (61 ||| r1))
  toUint32 (r2 ^^^ (r2 >>> 14))

/-- `createSeededRandom` (simulation.ts:277-286).  The JS closure keeps
`t`, initialized to `seed >>> 0` and incremented by `0x6d2b79f5` at the
start of every call; after the increment of the `k`-th call (0-indexed)
`t = (seed >>> 0) + (k+1) * 0x6d2b79f5`.  The call returns the mixed value
divided by `2^32` (an exact operation on doubles). -/
def createSeededRandom (seed : Nat) : Nat → ℚ := fun k =>
  (mulberryMix (toUint32 seed + (k + 1) * 0x6d2b79f5) : ℚ) / 4294967296

/-- Modelled from the spec (claim C1): state sequence of the Mulberry32
algorithm, `t` starting at the seed truncated to 32 bits and incremented by
`0x6d2b79f5` with wrapping modulo `2^32` on each draw.  `mulberry32State s n`
is the state used by the `n`-th draw (`n ≥ 1`). -/
def mulberry32State (s : Nat) : Nat → Nat
  | 0 => s % 4294967296
  | n + 1 => (mulberry32State s n + 0x6d2b79f5) % 4294967296

/-- Modelled from the spec (claim C1): the per-draw mixing,
`result = (t XOR (t >> 15)) * (t OR 1)` with truncating 32-bit multiply,
then `result = result XOR (result + ((result XOR (result >> 7)) * (result
OR 61)))` with 32-bit wrapping, and the output word
`(result XOR (result >> 14))` as an unsigned 32-bit value. -/
def mulberry32Result (t : Nat) : Nat :=
  let r1 := ((t ^^^ (t >>> 15)) * (t ||| 1)) % 4294967296
  let r2 := (r1 ^^^ ((r1 + ((r1 ^^^ (r1 >>> 7)) * (r1 ||| 61)) % 4294967296)
      % 4294967296)) % 4294967296
  (r2 ^^^ (r2 >>> 14)) % 4294967296

/-- Modelled from the spec (claim C1): the `n`-th output of Mulberry32
(`n ≥ 1`), namely the mixed `n`-th state divided by `4294967296.0`. -/
def mulberry32Draw (s n : Nat) : ℚ :=
  (mulberry32Result (mulberry32State s n) : ℚ) / 4294967296

/-! ## Data model (simulation.ts) -/

inductive SlotProfile
  | steady
  | balanced
  | volatile
deriving DecidableEq, Repr

inductive RouletteBet
  | singleNumber
  | split
  | street
  | dozen
  | evenMoney
deriving DecidableEq, Repr

structure SlotSettings where
  spins : Nat
  betSize : ℚ
  profile : SlotProfile
deriving DecidableEq, Repr

structure RouletteSettings where
  spins : Nat
  betSize : ℚ
  bet : RouletteBet
deriving DecidableEq, Repr

/-- The tagged union `SimulationSettings = SlotSettings | RouletteSettings`. -/
inductive SimulationSettings
  | slot (s : SlotSettings)
  | roulette (s : RouletteSettings)
deriving DecidableEq, Repr

def SimulationSettings.spins : SimulationSettings → Nat
  | .slot s => s.spins
  | .roulette s => s.spins

def SimulationSettings.betSize : SimulationSettings → ℚ
  | .slot s => s.betSize
  | .roulette s => s.betSize

/-- `volatilitySq` records the variance; the source stores
`Math.sqrt(variance)`, which has no exact `ℚ` counterpart. -/
structure SimulationSummary where
  totalWinSpins : Nat
  totalLosingSpins : Nat
  finalNet : ℚ
  peak : ℚ
  trough : ℚ
  volatilitySq : ℚ
deriving DecidableEq, Repr

structure SimulationLine where
  points : List ℚ
  summary : SimulationSummary
deriving DecidableEq, Repr

structure Outcome where
  probability : ℚ
  multiplier : ℚ
deriving DecidableEq, Repr

/-- The static slot outcome tables (simulation.ts:48-83). -/
def slotProfiles : SlotProfile → List Outcome
  | .steady =>
    [⟨0.336, 0⟩, ⟨0.25, 0.5⟩, ⟨0.2, 1⟩, ⟨0.1, 1.5⟩, ⟨0.07, 2⟩,
     ⟨0.032, 5⟩, ⟨0.011, 10⟩, ⟨0.001, 20⟩]
  | .balanced =>
    [⟨0.5937, 0⟩, ⟨0.1, 0.5⟩, ⟨0.15, 1⟩, ⟨0.09, 2⟩, ⟨0.049, 5⟩,
     ⟨0.015, 10⟩, ⟨0.002, 50⟩, ⟨0.0003, 100⟩]
  | .volatile =>
    [⟨0.769425, 0⟩, ⟨0.1, 0.5⟩, ⟨0.05, 1⟩, ⟨0.04, 2⟩, ⟨0.02, 5⟩,
     ⟨0.015, 10⟩, ⟨0.003, 50⟩, ⟨0.0025, 100⟩, ⟨0.000075, 1000⟩]

structure RouletteBetDefinition where
  probability : ℚ
  multiplier : ℚ
  label : String
deriving DecidableEq, Repr

/-- The static roulette bet catalog (simulation.ts:97-123). -/
def rouletteBets : RouletteBet → RouletteBetDefinition
  | .singleNumber => ⟨1 / 37, 36, "Single Number (35:1)"⟩
  | .split => ⟨2 / 37, 18, "Split (17:1)"⟩
  | .street => ⟨3 / 37, 12, "Street (11:1)"⟩
  | .dozen => ⟨12 / 37, 3, "Dozen (2:1)"⟩
  | .evenMoney => ⟨18 / 37, 2, "Red / Black (1:1)"⟩

/-! ## Outcome distribution sampler (simulation.ts:125-137) -/

/-- The `for (const outcome of outcomes)` loop of `randomFromDistribution`,
with the running `cumulative` sum as an accumulator; `none` means the loop
fell through without returning. -/
def walkOutcomes (roll : ℚ) (cumulative : ℚ) : List Outcome → Option ℚ
  | [] => none
  | o :: rest =>
    let c := cumulative + o.probability
    if roll ≤ c then some o.multiplier else walkOutcomes roll c rest

/-- `randomFromDistribution` (simulation.ts:125-137).  The source draws
`roll = rand()` itself; callers below pass that single draw in.  The
fallback line is `outcomes[outcomes.length - 1]?.multiplier ?? 0`. -/
def randomFromDistribution (outcomes : List Outcome) (roll : ℚ) : ℚ :=
  (walkOutcomes roll 0 outcomes).getD
    ((outcomes.getLast?.map Outcome.multiplier).getD 0)

/-! ## Game loops (simulation.ts:139-232)

`simulateSlot` and `simulateRoulette` contain the identical mutable state
(`net`, `peak`, `trough`, `winSpins`, `loseSpins`, `points`), the identical
per-spin bookkeeping after computing `change` and the win/lose condition,
and the identical summary construction; the embedding factors these shared
parts (`SpinState`, `applySpin`, `spinLoop`, `buildLine`) and keeps the
per-game parts in `slotSpinStep` / `rouletteSpinStep`. -/

structure SpinState where
  net : ℚ
  peak : ℚ
  trough : ℚ
  winSpins : Nat
  loseSpins : Nat
  points : List ℚ
deriving DecidableEq, Repr

/-- `let net = 0; let peak = 0; let trough = 0; let winSpins = 0;
let loseSpins = 0; const points = [0];` -/
def initSpinState : SpinState := ⟨0, 0, 0, 0, 0, [0]⟩

/-- The shared per-spin bookkeeping: bump the win or lose counter according
to `win`, then `net += change; peak = Math.max(peak, net);
trough = Math.min(trough, net); points.push(net);`. -/
def applySpin (st : SpinState) (change : ℚ) (win : Bool) : SpinState :=
  let net := st.net + change
  { net := net
    peak := max st.peak net
    trough := min st.trough net
    winSpins := if win then st.winSpins + 1 else st.winSpins
    loseSpins := if win then st.loseSpins else st.loseSpins + 1
    points := st.points ++ [net] }

/-- Loop body of `simulateSlot` (simulation.ts:150-165): the win/lose
branch condition is `change > 0`. -/
def slotSpinStep (betSize : ℚ) (outcomes : List Outcome) (roll : ℚ)
    (st : SpinState) : SpinState :=
  let multiplier := randomFromDistribution outcomes roll
  let payout := betSize * multiplier
  let change := payout - betSize
  applySpin st change (decide (0 < change))

/-- Loop body of `simulateRoulette` (simulation.ts:199-214): the branch
condition is `win`, i.e. `roll <= betDefinition.probability`. -/
def rouletteSpinStep (betSize : ℚ) (betDefinition : RouletteBetDefinition)
    (roll : ℚ) (st : SpinState) : SpinState :=
  let win := decide (roll ≤ betDefinition.probability)
  let change := if win then betSize * (betDefinition.multiplier - 1)
                else -betSize
  applySpin st change win

/-- `for (let i = 0; i < spins; i++) { ... }`: `spinLoop step n` is the
state after the first `n` iterations, iteration `i` running `step i`. -/
def spinLoop (step : Nat → SpinState → SpinState) : Nat → SpinState
  | 0 => initSpinState
  | n + 1 => step n (spinLoop step n)

/-- The summary construction shared by both games (simulation.ts:167-182
and 216-231): mean and population variance over all trajectory points
(`reduce` with initial value 0, divided by `points.length`). -/
def buildLine (st : SpinState) : SimulationLine :=
  let mean := st.points.sum / (st.points.length : ℚ)
  let variance :=
    (st.points.map (fun value => (value - mean) ^ 2)).sum
      / (st.points.length : ℚ)
  { points := st.points
    summary :=
      { totalWinSpins := st.winSpins
        totalLosingSpins := st.loseSpins
        finalNet := st.net
        peak := st.peak
        trough := st.trough
        volatilitySq := variance } }

/-- `simulateSlot` (simulation.ts:139-183). -/
def simulateSlot (settings : SlotSettings) (rand : Nat → ℚ) :
    SimulationLine :=
  let outcomes := slotProfiles settings.profile
  buildLine
    (spinLoop (fun i st => slotSpinStep settings.betSize outcomes (rand i) st)
      settings.spins)

/-- `simulateRoulette` (simulation.ts:185-232). -/
def simulateRoulette (settings : RouletteSettings) (rand : Nat → ℚ) :
    SimulationLine :=
  let betDefinition := rouletteBets settings.bet
  buildLine
    (spinLoop
      (fun i st => rouletteSpinStep settings.betSize betDefinition (rand i) st)
      settings.spins)

/-- `runSimulation` (simulation.ts:234-243). -/
def runSimulation (settings : SimulationSettings) (rand : Nat → ℚ) :
    SimulationLine :=
  match settings with
  | .slot s => simulateSlot s rand
  | .roulette s => simulateRoulette s rand

/-! ## Mean line (simulation.ts:245-268) -/

/-- Inner loop of `calculateMeanLine` for one index `i`: the `(sum, count)`
pair accumulated over the lines whose `points[i]` is defined, i.e. whose
points list has length `> i` (the points are numbers, never `undefined`,
within bounds).  `ℚ` addition is commutative and associative, so the
head-first recursion sums the same value as the source's left-to-right
accumulation. -/
def sumCountAt (i : Nat) : List SimulationLine → ℚ × Nat
  | [] => (0, 0)
  | line :: rest =>
    let sc := sumCountAt i rest
    if i < line.points.length then (line.points.getD i 0 + sc.1, sc.2 + 1)
    else sc

/-- `Math.max(...lines.map((line) => line.points.length))` for a non-empty
`lines` (the empty case returns early). -/
def maxPointsLen (lines : List SimulationLine) : Nat :=
  (lines.map (fun line => line.points.length)).foldr max 0

/-- `calculateMeanLine` (simulation.ts:245-268). -/
def calculateMeanLine (lines : List SimulationLine) : List ℚ :=
  if lines.isEmpty then []
  else
    (List.range (maxPointsLen lines)).map (fun i =>
      let sc := sumCountAt i lines
      if 0 < sc.2 then sc.1 / (sc.2 : ℚ) else 0)

/-- `defaultSettings` (simulation.ts:270-275). -/
def defaultSettings : SimulationSettings :=
  .slot { spins := 200, betSize := 1, profile := .balanced }

/-! ## Batch aggregation (page.tsx:58-178)

The `simulationData` memo of `page.tsx` runs `totalRuns` sessions with
per-index derived seeds, folds every trajectory into an element-wise
accumulator, keeps the first `MAX_DISPLAY_RUNS` full results for display,
and rolls the remaining runs up into tail counters.  The loop state is
`BatchState`; `batchLoop settings baseSeed n` is its value after the first
`n` iterations of the `for (let index = 0; index < totalRuns; index++)`
loop. -/

def MAX_DISPLAY_RUNS : Nat := 100

def SEED_STEP : Nat := 9973

/-- `seedForIndex` (page.tsx:67-68): `(base + index * SEED_STEP) >>> 0`. -/
def seedForIndex (base index : Nat) : Nat :=
  toUint32 (base + index * SEED_STEP)

structure TailSummary where
  count : Nat
  totalFinal : ℚ
  winRate : ℚ
  lossRate : ℚ
deriving DecidableEq, Repr

structure BatchState where
  accumulator : List ℚ
  displayRuns : List SimulationLine
  aggregateFinalNet : ℚ
  tailFinalSum : ℚ
  tailWinSpins : Nat
  tailLossSpins : Nat
deriving DecidableEq, Repr

structure BatchData where
  displayRuns : List SimulationLine
  meanLine : List ℚ
  tailSummary : Option TailSummary
  totalRuns : Nat
  totalFinal : ℚ
deriving DecidableEq, Repr

/-- `for (let i = 0; i < points.length; i++) { accumulator[i] += points[i]; }`
(page.tsx:137-139).  In the source `accumulator` and `points` always have
the same length `maxSpins + 1 = settings.spins + 1`. -/
def addPoints : List ℚ → List ℚ → List ℚ
  | acc, [] => acc
  | [], _ :: _ => []
  | a :: acc, p :: ps => (a + p) :: addPoints acc ps

/-- The session executed by loop iteration `index` (page.tsx:132-134):
`const seed = seedForIndex(baseSeed, index); const rng =
createSeededRandom(seed); const result = runSimulation(settings, rng);`. -/
def runAt (settings : SimulationSettings) (baseSeed index : Nat) :
    SimulationLine :=
  runSimulation settings (createSeededRandom (seedForIndex baseSeed index))

/-- One iteration of the batch loop (page.tsx:131-155). -/
def batchStep (settings : SimulationSettings) (baseSeed index : Nat)
    (st : BatchState) : BatchState :=
  let result := runAt settings baseSeed index
  let acc := addPoints st.accumulator result.points
  if index < MAX_DISPLAY_RUNS then
    { st with
      accumulator := acc
      displayRuns := st.displayRuns ++ [result]
      aggregateFinalNet := st.aggregateFinalNet + result.summary.finalNet }
  else
    { st with
      accumulator := acc
      tailFinalSum := st.tailFinalSum + result.summary.finalNet
      tailWinSpins := st.tailWinSpins + result.summary.totalWinSpins
      tailLossSpins := st.tailLossSpins + result.summary.totalLosingSpins
      aggregateFinalNet := st.aggregateFinalNet + result.summary.finalNet }

/-- Initial loop state (page.tsx:124-129): the accumulator is
`Array.from({ length: maxSpins + 1 }, () => 0)` with
`maxSpins = settings.spins`. -/
def batchInit (maxSpins : Nat) : BatchState :=
  { accumulator := List.replicate (maxSpins + 1) 0
    displayRuns := []
    aggregateFinalNet := 0
    tailFinalSum := 0
    tailWinSpins := 0
    tailLossSpins := 0 }

def batchLoop (settings : SimulationSettings) (baseSeed : Nat) :
    Nat → BatchState
  | 0 => batchInit settings.spins
  | n + 1 => batchStep settings baseSeed n (batchLoop settings baseSeed n)

/-- The tail win/loss rate (page.tsx:170-173):
`(tailWinSpins / (additionalCount * settings.spins)) * 100 || 0`.
When the denominator is 0 the numerator is also 0 on every reachable state
(each run contributes at most `spins` win spins, see `c9`-related lemmas),
so JS computes `0/0 = NaN` and `|| 0` turns it into `0`; `ℚ` division by
zero is `0` directly, so the two agree on all reachable states. -/
def tailRate (spinCount : Nat) (denom : Nat) : ℚ :=
  ((spinCount : ℚ) / (denom : ℚ)) * 100

/-- `simulationData` (page.tsx:122-178). -/
def simulationData (settings : SimulationSettings)
    (runCount baseSeed : Nat) : BatchData :=
  let totalRuns := max runCount 1
  let st := batchLoop settings baseSeed totalRuns
  let meanLine :=
    if 0 < totalRuns then st.accumulator.map (fun sum => sum / (totalRuns : ℚ))
    else List.replicate (settings.spins + 1) 0
  let additionalCount :=
    if st.displayRuns.length < totalRuns then totalRuns - st.displayRuns.length
    else 0
  let tailSummary :=
    if 0 < additionalCount then
      some { count := additionalCount
             totalFinal := st.tailFinalSum
             winRate := tailRate st.tailWinSpins
               (additionalCount * settings.spins)
             lossRate := tailRate st.tailLossSpins
               (additionalCount * settings.spins) }
    else none
  { displayRuns := st.displayRuns
    meanLine := meanLine
    tailSummary := tailSummary
    totalRuns := totalRuns
    totalFinal := st.aggregateFinalNet }

/-! ## Claim-side definitions

These definitions follow the words of the spec sentences being checked and
are compared with the source-derived definitions above. -/

/-- Cumulative probability of the table through entry `i` (in declaration
order), as used by the sampler claim. -/
def cumProb (outcomes : List Outcome) (i : Nat) : ℚ :=
  ((outcomes.take (i + 1)).map Outcome.probability).sum

/-- Index of the first entry whose cumulative probability is reached by the
draw, if any. -/
def firstHitIdx (outcomes : List Outcome) (roll : ℚ) : Option Nat :=
  (List.range outcomes.length).find? (fun i => decide (roll ≤ cumProb outcomes i))

/-- Modelled from the spec (claim C3): the multiplier of the first entry
with `draw <= cumulative sum`; the last entry's multiplier if no entry
qualifies; the default multiplier `0` on an empty table. -/
def sampleSpec (outcomes : List Outcome) (roll : ℚ) : ℚ :=
  match firstHitIdx outcomes roll with
  | some i => (outcomes.map Outcome.multiplier).getD i 0
  | none => (outcomes.getLast?.map Outcome.multiplier).getD 0

/-- Modelled from the claim (C10): the arithmetic mean of `points[i]` over
exactly those lines that have an `i`-th point, and `0` if no line has
one. -/
def meanAtSpec (lines : List SimulationLine) (i : Nat) : ℚ :=
  let contributing :=
    (lines.filter (fun line => decide (i < line.points.length))).map
      (fun line => line.points.getD i 0)
  if contributing.isEmpty then 0
  else contributing.sum / (contributing.length : ℚ)

/-! ## Helper lemmas: the random source -/

lemma u32_eq_pow : (4294967296 : Nat) = 2 ^ 32 := by norm_num

lemma xor_lt_u32 {a b : Nat} (ha : a < 4294967296) (hb : b < 4294967296) :
    a ^^^ b < 4294967296 := by
  rw [u32_eq_pow] at ha hb ⊢
  exact Nat.xor_lt_two_pow ha hb

/-- The closure body sees only `t % 2^32` and computes exactly the spec's
per-draw mixing. -/
lemma mulberryMix_eq (t : Nat) :
    mulberryMix t = mulberry32Result (t % 4294967296) := by
  have hM : (0 : Nat) < 4294967296 := by norm_num
  unfold mulberryMix mulberry32Result imul toUint32
  dsimp only
  generalize t % 4294967296 = u
  rw [Nat.lor_comm 1 u, Nat.lor_comm 61]
  have h1 : ((u ^^^ u >>> 15) * (u ||| 1)) % 4294967296 < 4294967296 :=
    Nat.mod_lt _ hM
  generalize hA : ((u ^^^ u >>> 15) * (u ||| 1)) % 4294967296 = A at h1
  have h2 : (A + (A ^^^ A >>> 7) * (A ||| 61) % 4294967296) % 4294967296
      < 4294967296 := Nat.mod_lt _ hM
  generalize (A + (A ^^^ A >>> 7) * (A ||| 61) % 4294967296) % 4294967296 = B
    at h2
  rw [Nat.mod_eq_of_lt (xor_lt_u32 h1 h2)]

/-- The JS variable `t`, which grows without wrapping, agrees modulo `2^32`
with the spec's wrapping state. -/
lemma mulberry32State_eq (s : Nat) : ∀ n,
    mulberry32State s n = (s % 4294967296 + n * 0x6d2b79f5) % 4294967296 := by
  intro n
  induction n with
  | zero => simp [mulberry32State]
  | succ n ih =>
    rw [mulberry32State, ih]
    omega

/-! ## Helper lemmas: the spin loops -/

/-- Loop invariant shared by both game loops: any step of the
`applySpin` shape preserves counter totals, trajectory length and head,
last-point/net agreement, and the sign constraints of peak and trough. -/
lemma spinLoop_inv (step : Nat → SpinState → SpinState)
    (hstep : ∀ i st, ∃ c b, step i st = applySpin st c b) (n : Nat) :
    (spinLoop step n).winSpins + (spinLoop step n).loseSpins = n ∧
    (spinLoop step n).points.length = n + 1 ∧
    (spinLoop step n).points.head? = some 0 ∧
    (spinLoop step n).points.getLast? = some (spinLoop step n).net ∧
    0 ≤ (spinLoop step n).peak ∧ (spinLoop step n).trough ≤ 0 := by
  induction n with
  | zero =>
    exact ⟨rfl, rfl, rfl, rfl, le_refl 0, le_refl 0⟩
  | succ n ih =>
    obtain ⟨h1, h2, h3, h4, h5, h6⟩ := ih
    obtain ⟨c, b, he⟩ := hstep n (spinLoop step n)
    obtain ⟨rest, hrest⟩ : ∃ rest, (spinLoop step n).points = 0 :: rest := by
      cases hp : (spinLoop step n).points with
      | nil => rw [hp] at h3; simp at h3
      | cons a l =>
        rw [hp] at h3
        simp only [List.head?_cons, Option.some.injEq] at h3
        exact ⟨l, by rw [h3]⟩
    rw [spinLoop, he]
    unfold applySpin
    refine ⟨?_, ?_, ?_, ?_, ?_, ?_⟩
    · dsimp only
      cases b <;> simp <;> omega
    · simp [h2]
    · dsimp only
      rw [hrest]
      simp
    · dsimp only
      exact List.getLast?_concat _
    · dsimp only
      exact le_max_of_le_left h5
    · dsimp only
      exact (min_le_left _ _).trans h6

/-- Both `runSimulation` branches are a `spinLoop` over `applySpin`-shaped
steps followed by `buildLine`. -/
lemma runSimulation_shape (settings : SimulationSettings) (rand : Nat → ℚ) :
    ∃ step : Nat → SpinState → SpinState,
      runSimulation settings rand = buildLine (spinLoop step settings.spins) ∧
      ∀ i st, ∃ c b, step i st = applySpin st c b := by
  cases settings with
  | slot s =>
    refine ⟨fun i st =>
      slotSpinStep s.betSize (slotProfiles s.profile) (rand i) st, rfl,
      fun i st => ⟨_, _, rfl⟩⟩
  | roulette s =>
    refine ⟨fun i st =>
      rouletteSpinStep s.betSize (rouletteBets s.bet) (rand i) st, rfl,
      fun i st => ⟨_, _, rfl⟩⟩

/-- Trajectory length of any session is `spins + 1`. -/
lemma runSimulation_points_length (settings : SimulationSettings)
    (rand : Nat → ℚ) :
    (runSimulation settings rand).points.length = settings.spins + 1 := by
  obtain ⟨step, hrun, hstep⟩ := runSimulation_shape settings rand
  rw [hrun]
  exact (spinLoop_inv step hstep settings.spins).2.1

/-- A session of zero spins has final net `0`. -/
lemma runSimulation_finalNet_zero (settings : SimulationSettings)
    (rand : Nat → ℚ) (hz : settings.spins = 0) :
    (runSimulation settings rand).summary.finalNet = 0 := by
  obtain ⟨step, hrun, hstep⟩ := runSimulation_shape settings rand
  rw [hrun, hz]
  rfl

/-- Win and losing spin counts of any session sum to `spins`. -/
lemma runSimulation_counts (settings : SimulationSettings) (rand : Nat → ℚ) :
    (runSimulation settings rand).summary.totalWinSpins
      + (runSimulation settings rand).summary.totalLosingSpins
      = settings.spins := by
  obtain ⟨step, hrun, hstep⟩ := runSimulation_shape settings rand
  rw [hrun]
  exact (spinLoop_inv step hstep settings.spins).1

/-! ## Helper lemmas: the sampler -/

lemma cumProb_cons_succ (o : Outcome) (rest : List Outcome) (i : Nat) :
    cumProb (o :: rest) (i + 1) = o.probability + cumProb rest i := by
  simp [cumProb, List.take_succ_cons]

lemma cumProb_cons_zero (o : Outcome) (rest : List Outcome) :
    cumProb (o :: rest) 0 = o.probability := by
  simp [cumProb]

/-- The sampler loop, with the running cumulative sum `c` as accumulator,
finds exactly the first index whose offset cumulative probability reaches
the draw. -/
lemma walkOutcomes_eq (l : List Outcome) : ∀ roll c : ℚ,
    walkOutcomes roll c l
      = ((List.range l.length).find?
            (fun i => decide (roll ≤ c + cumProb l i))).map
          (fun i => (l.map Outcome.multiplier).getD i 0) := by
  induction l with
  | nil => intro roll c; rfl
  | cons o rest ih =>
    intro roll c
    rw [walkOutcomes]
    simp only [List.length_cons, List.range_succ_eq_map]
    by_cases h : roll ≤ c + o.probability
    · rw [List.find?_cons_of_pos]
      · simp [h]
      · simp [cumProb_cons_zero, h]
    · rw [List.find?_cons_of_neg, if_neg h, List.find?_map]
      · have hcomp : ((fun i => decide (roll ≤ c + cumProb (o :: rest) i))
            ∘ Nat.succ)
            = fun i => decide (roll ≤ c + o.probability + cumProb rest i) := by
          funext i
          simp only [Function.comp_apply, cumProb_cons_succ]
          rw [add_assoc]
        rw [hcomp, ih roll (c + o.probability)]
        cases hfind : (List.range rest.length).find?
            (fun i => decide (roll ≤ c + o.probability + cumProb rest i)) with
        | none => simp [hfind]
        | some i => simp [hfind]
      · simp [cumProb_cons_zero, h]

/-! ## Helper lemmas: the mean line -/

/-- The inner accumulation of `calculateMeanLine` computes the sum and the
count over exactly the lines whose points list reaches index `i`. -/
lemma sumCountAt_eq (i : Nat) (lines : List SimulationLine) :
    sumCountAt i lines
      = (((lines.filter (fun line => decide (i < line.points.length))).map
            (fun line => line.points.getD i 0)).sum,
         ((lines.filter (fun line => decide (i < line.points.length))).map
            (fun line => line.points.getD i 0)).length) := by
  induction lines with
  | nil => rfl
  | cons line rest ih =>
    rw [sumCountAt]
    by_cases h : i < line.points.length
    · rw [List.filter_cons_of_pos (by simpa using h)]
      simp [ih, h]
    · rw [List.filter_cons_of_neg (by simpa using h)]
      simp [ih, h]

/-! ## Helper lemmas: batch aggregation -/

lemma addPoints_length : ∀ acc pts : List ℚ,
    (addPoints acc pts).length = acc.length := by
  intro acc
  induction acc with
  | nil => intro pts; cases pts <;> rfl
  | cons a acc ih =>
    intro pts
    cases pts with
    | nil => rfl
    | cons p ps => simp [addPoints, ih]

lemma addPoints_getD : ∀ acc pts : List ℚ, pts.length ≤ acc.length →
    ∀ i, (addPoints acc pts).getD i 0 = acc.getD i 0 + pts.getD i 0 := by
  intro acc
  induction acc with
  | nil =>
    intro pts h i
    rw [List.length_nil, Nat.le_zero, List.length_eq_zero] at h
    subst h
    simp [addPoints]
  | cons a acc ih =>
    intro pts h i
    cases pts with
    | nil => simp [addPoints]
    | cons p ps =>
      cases i with
      | zero => simp [addPoints]
      | succ i =>
        simp only [addPoints, List.getD_cons_succ]
        exact ih ps (by simpa using h) i

lemma getD_replicate (k i : Nat) : (List.replicate k (0 : ℚ)).getD i 0 = 0 := by
  induction k generalizing i with
  | zero => rfl
  | succ k ih =>
    cases i with
    | zero => rfl
    | succ i => exact ih i

/-- Invariant of the batch loop after `n` iterations: accumulator length
and element-wise content, the two decompositions of the running total, the
display-list length, and the vanishing of the tail spin counters when
`spins = 0`. -/
lemma batchLoop_inv (settings : SimulationSettings) (baseSeed : Nat)
    (n : Nat) :
    (batchLoop settings baseSeed n).accumulator.length
        = settings.spins + 1 ∧
    (∀ i, (batchLoop settings baseSeed n).accumulator.getD i 0
        = ((List.range n).map
            (fun j => (runAt settings baseSeed j).points.getD i 0)).sum) ∧
    (batchLoop settings baseSeed n).aggregateFinalNet
        = ((List.range n).map
            (fun j => (runAt settings baseSeed j).summary.finalNet)).sum ∧
    (batchLoop settings baseSeed n).aggregateFinalNet
        = ((batchLoop settings baseSeed n).displayRuns.map
            (fun line => line.summary.finalNet)).sum
          + (batchLoop settings baseSeed n).tailFinalSum ∧
    (batchLoop settings baseSeed n).displayRuns.length
        = min n MAX_DISPLAY_RUNS ∧
    (settings.spins = 0 →
      (batchLoop settings baseSeed n).tailWinSpins = 0 ∧
      (batchLoop settings baseSeed n).tailLossSpins = 0 ∧
      (batchLoop settings baseSeed n).tailFinalSum = 0) := by
  induction n with
  | zero =>
    refine ⟨by simp [batchLoop, batchInit], fun i => ?_,
      by simp [batchLoop, batchInit], by simp [batchLoop, batchInit],
      by simp [batchLoop, batchInit], fun _ => by simp [batchLoop, batchInit]⟩
    simp [batchLoop, batchInit, getD_replicate]
  | succ n ih =>
    obtain ⟨hlen, hacc, hagg, hsplit, hdisp, htail⟩ := ih
    have hpts : (runAt settings baseSeed n).points.length
        = settings.spins + 1 := runSimulation_points_length settings _
    have hcnt := runSimulation_counts settings
      (createSeededRandom (seedForIndex baseSeed n))
    have hfin := runSimulation_finalNet_zero settings
      (createSeededRandom (seedForIndex baseSeed n))
    rw [batchLoop]
    unfold batchStep
    by_cases hn : n < MAX_DISPLAY_RUNS
    · rw [if_pos hn]
      refine ⟨?_, fun i => ?_, ?_, ?_, ?_, fun hz => ?_⟩
      · dsimp only
        rw [addPoints_length, hlen]
      · dsimp only
        rw [addPoints_getD _ _ (by rw [hlen, hpts]) i, hacc i,
          List.range_succ, List.map_append, List.sum_append]
        simp
      · dsimp only
        rw [hagg, List.range_succ, List.map_append, List.sum_append]
        simp
      · dsimp only
        rw [List.map_append, List.sum_append]
        simp only [List.map_cons, List.map_nil, List.sum_cons, List.sum_nil]
        rw [hsplit]
        ring
      · dsimp only
        rw [List.length_append, hdisp]
        simp only [List.length_cons, List.length_nil]
        omega
      · dsimp only
        exact htail hz
    · rw [if_neg hn]
      refine ⟨?_, fun i => ?_, ?_, ?_, ?_, fun hz => ?_⟩
      · dsimp only
        rw [addPoints_length, hlen]
      · dsimp only
        rw [addPoints_getD _ _ (by rw [hlen, hpts]) i, hacc i,
          List.range_succ, List.map_append, List.sum_append]
        simp
      · dsimp only
        rw [hagg, List.range_succ, List.map_append, List.sum_append]
        simp
      · dsimp only
        rw [hsplit]
        ring
      · dsimp only
        rw [hdisp]
        omega
      · dsimp only
        obtain ⟨hw, hl, hf⟩ := htail hz
        rw [hw, hl, hf]
        have hc0 : (runAt settings baseSeed n).summary.totalWinSpins
            + (runAt settings baseSeed n).summary.totalLosingSpins = 0 := by
          unfold runAt
          rw [hcnt]
          exact hz
        have hf0 : (runAt settings baseSeed n).summary.finalNet = 0 := by
          unfold runAt
          exact hfin hz
        refine ⟨by omega, by omega, ?_⟩
        rw [hf0, zero_add]

/-! ## Claim theorems -/

/-- C1: for every seed and every call index `n ≥ 1` (here written `n + 1`),
the `n`-th value returned by the closure produced by `createSeededRandom`
equals, bit for bit, the `n`-th output of the specified Mulberry32
algorithm: wrapping state increments of `0x6d2b79f5`, the two 32-bit
wrapping mixing steps, and the final division of the unsigned 32-bit word
by `4294967296.0`.  `createSeededRandom seed k` denotes the `(k+1)`-th
value, so this covers exactly the call indices `n ≥ 1`; both sides are
functions of `(seed, call index)` alone, so the value is the same on every
invocation. -/
theorem c1_rng_is_mulberry32 (seed n : Nat) :
    createSeededRandom seed n = mulberry32Draw seed (n + 1) := by
  unfold createSeededRandom mulberry32Draw
  rw [mulberryMix_eq, mulberry32State_eq]
  rfl

/-- C3: `randomFromDistribution` walks the table in declared order and
returns the multiplier of the first entry whose cumulative probability sum
reaches the draw; when no entry qualifies it returns the last entry's
multiplier rather than an error; on an empty table it returns the default
multiplier `0` with no out-of-range access. -/
theorem c3_sampler_first_match (outcomes : List Outcome) (roll : ℚ) :
    randomFromDistribution outcomes roll = sampleSpec outcomes roll ∧
    randomFromDistribution [] roll = 0 := by
  refine ⟨?_, rfl⟩
  unfold randomFromDistribution sampleSpec firstHitIdx
  rw [walkOutcomes_eq]
  have hp : (fun i => decide (roll ≤ 0 + cumProb outcomes i))
      = fun i => decide (roll ≤ cumProb outcomes i) := by
    funext i
    rw [zero_add]
  rw [hp]
  cases hfind : (List.range outcomes.length).find?
      (fun i => decide (roll ≤ cumProb outcomes i)) with
  | none => rfl
  | some i => rfl

/-- C4: each slot spin adds `betSize * multiplier - betSize` to the net,
is counted as a win spin iff that change is strictly positive, and a
breakeven spin (`multiplier = 1`) is counted in the losing bucket. -/
theorem c4_slot_spin_classification (betSize roll m change : ℚ)
    (outcomes : List Outcome) (st : SpinState)
    (hm : m = randomFromDistribution outcomes roll)
    (hc : change = betSize * m - betSize) :
    (slotSpinStep betSize outcomes roll st).net = st.net + change ∧
    ((slotSpinStep betSize outcomes roll st).winSpins = st.winSpins + 1
      ↔ 0 < change) ∧
    ((slotSpinStep betSize outcomes roll st).loseSpins = st.loseSpins + 1
      ↔ ¬0 < change) ∧
    (m = 1 → change = 0 ∧
      (slotSpinStep betSize outcomes roll st).loseSpins = st.loseSpins + 1) := by
  subst hm hc
  unfold slotSpinStep applySpin
  by_cases h : 0 < betSize * randomFromDistribution outcomes roll - betSize
  · refine ⟨rfl, by simp [h], by simp [h], ?_⟩
    intro h1
    rw [h1, mul_one, sub_self] at h
    exact absurd h (lt_irrefl 0)
  · refine ⟨rfl, by simp [h], by simp [h], ?_⟩
    intro h1
    rw [h1, mul_one, sub_self]
    exact ⟨rfl, by simp⟩

/-- C5: each roulette spin wins iff the draw is at most the bet's single
probability (used directly as threshold); the net change is
`betSize * (multiplier - 1)` on a win and `-betSize` on a loss; the
win/loss counters follow the same boolean. -/
theorem c5_roulette_spin (betSize roll change : ℚ)
    (bd : RouletteBetDefinition) (st : SpinState) (win : Bool)
    (hw : win = decide (roll ≤ bd.probability))
    (hc : change = if win then betSize * (bd.multiplier - 1) else -betSize) :
    (rouletteSpinStep betSize bd roll st).net = st.net + change ∧
    ((rouletteSpinStep betSize bd roll st).winSpins = st.winSpins + 1
      ↔ roll ≤ bd.probability) ∧
    ((rouletteSpinStep betSize bd roll st).loseSpins = st.loseSpins + 1
      ↔ ¬roll ≤ bd.probability) ∧
    (win = true → change = betSize * (bd.multiplier - 1)) ∧
    (win = false → change = -betSize) := by
  subst hw hc
  unfold rouletteSpinStep applySpin
  by_cases h : roll ≤ bd.probability <;>
    refine ⟨rfl, by simp [h], by simp [h], by simp [h], by simp [h]⟩

/-- C6: every session summary satisfies
`totalWinSpins + totalLosingSpins = spins`, `finalNet` is the last
trajectory point, `peak ≥ 0`, `trough ≤ 0` and `peak ≥ trough`. -/
theorem c6_summary_consistency (settings : SimulationSettings)
    (rand : Nat → ℚ) :
    (runSimulation settings rand).summary.totalWinSpins
        + (runSimulation settings rand).summary.totalLosingSpins
      = settings.spins ∧
    (runSimulation settings rand).points.getLast?
      = some (runSimulation settings rand).summary.finalNet ∧
    0 ≤ (runSimulation settings rand).summary.peak ∧
    (runSimulation settings rand).summary.trough ≤ 0 ∧
    (runSimulation settings rand).summary.trough
      ≤ (runSimulation settings rand).summary.peak := by
  obtain ⟨step, hrun, hstep⟩ := runSimulation_shape settings rand
  rw [hrun]
  obtain ⟨h1, h2, h3, h4, h5, h6⟩ := spinLoop_inv step hstep settings.spins
  exact ⟨h1, h4, h5, h6, h6.trans h5⟩

/-- C7: for every settings with `spins = k` and every draw sequence, the
trajectory has exactly `k + 1` points and its first point is `0`. -/
theorem c7_trajectory_length (settings : SimulationSettings)
    (rand : Nat → ℚ) :
    (runSimulation settings rand).points.length = settings.spins + 1 ∧
    (runSimulation settings rand).points.head? = some 0 := by
  obtain ⟨step, hrun, hstep⟩ := runSimulation_shape settings rand
  rw [hrun]
  obtain ⟨h1, h2, h3, h4, h5, h6⟩ := spinLoop_inv step hstep settings.spins
  exact ⟨h2, h3⟩

/-- C8: the seed of run `i` is `(baseSeed + i * 9973) mod 2^32`, and two
32-bit base seeds that derive the same seed at index 0 are equal. -/
theorem c8_seed_derivation (b1 b2 i : Nat)
    (h1 : b1 < 4294967296) (h2 : b2 < 4294967296) :
    seedForIndex b1 i = (b1 + i * 9973) % 4294967296 ∧
    (seedForIndex b1 0 = seedForIndex b2 0 → b1 = b2) := by
  constructor
  · rfl
  · intro h
    simp only [seedForIndex, toUint32, Nat.mul_zero, Nat.add_zero] at h
    omega

/-- C10: `calculateMeanLine` returns `[]` on an empty input; otherwise a
list with one entry per index below the maximum points-list length, whose
entry `i` is the arithmetic mean of `points[i]` over exactly the lines
that have an `i`-th point (and `0` if none has one) — lines that are too
short are excluded from the mean, not treated as `0`. -/
theorem c10_mean_line (lines : List SimulationLine) :
    calculateMeanLine lines
      = if lines.isEmpty then []
        else (List.range (maxPointsLen lines)).map (meanAtSpec lines) := by
  unfold calculateMeanLine
  by_cases h : lines.isEmpty
  · rw [if_pos h, if_pos h]
  · rw [if_neg h, if_neg h]
    refine List.map_congr_left fun i _ => ?_
    rw [sumCountAt_eq]
    unfold meanAtSpec
    simp only [List.isEmpty_iff_length_eq_zero, List.length_map]
    by_cases hc : (lines.filter
        (fun line => decide (i < line.points.length))).length = 0
    · rw [if_pos hc, hc]
      norm_num
    · rw [if_neg hc, if_pos (Nat.pos_of_ne_zero hc)]

/-- C2: for `runCount = R ≥ 1`, the batch total equals the sum of
`finalNet` over all `R` runs — equivalently the display-run sum plus the
tail sum — and the mean line is, at every step index `i ∈ [0, spins]`, the
element-wise accumulator sum divided by `R`. -/
theorem c2_batch_fold (settings : SimulationSettings)
    (runCount baseSeed : Nat) (h : 1 ≤ runCount) :
    (simulationData settings runCount baseSeed).totalFinal
      = ((List.range runCount).map
          (fun j => (runAt settings baseSeed j).summary.finalNet)).sum ∧
    (simulationData settings runCount baseSeed).totalFinal
      = ((simulationData settings runCount baseSeed).displayRuns.map
          (fun line => line.summary.finalNet)).sum
        + (batchLoop settings baseSeed runCount).tailFinalSum ∧
    (simulationData settings runCount baseSeed).meanLine
      = (List.range (settings.spins + 1)).map (fun i =>
          ((List.range runCount).map
            (fun j => (runAt settings baseSeed j).points.getD i 0)).sum
            / (runCount : ℚ)) := by
  have hmax : max runCount 1 = runCount := max_eq_left h
  obtain ⟨hlen, hacc, hagg, hsplit, hdisp, htail⟩ :=
    batchLoop_inv settings baseSeed runCount
  have h1 : (simulationData settings runCount baseSeed).totalFinal
      = (batchLoop settings baseSeed runCount).aggregateFinalNet := by
    unfold simulationData
    rw [hmax]
  have h2 : (simulationData settings runCount baseSeed).displayRuns
      = (batchLoop settings baseSeed runCount).displayRuns := by
    unfold simulationData
    rw [hmax]
  have h3 : (simulationData settings runCount baseSeed).meanLine
      = (batchLoop settings baseSeed runCount).accumulator.map
          (fun sum => sum / ((runCount : Nat) : ℚ)) := by
    unfold simulationData
    rw [hmax]
    dsimp only
    rw [if_pos (by omega : 0 < runCount)]
  refine ⟨?_, ?_, ?_⟩
  · rw [h1, hagg]
  · rw [h1, h2, hsplit]
  · rw [h3]
    have haccList : (batchLoop settings baseSeed runCount).accumulator
        = (List.range (settings.spins + 1)).map (fun i =>
            ((List.range runCount).map
              (fun j => (runAt settings baseSeed j).points.getD i 0)).sum) := by
      refine List.ext_getElem (by rw [hlen, List.length_map,
        List.length_range]) ?_
      intro i hi1 hi2
      have hgd : (batchLoop settings baseSeed runCount).accumulator.getD i 0
          = (batchLoop settings baseSeed runCount).accumulator[i] := by
        rw [List.getD_eq_getElem?_getD, List.getElem?_eq_getElem hi1]
        rfl
      rw [List.getElem_map, List.getElem_range, ← hgd, hacc i]
    rw [haccList, List.map_map]
    rfl

/-- C9: whenever a tail summary exists, its `winRate` is
`100 * tailWinSpins / (tailRunCount * spins)` and its `lossRate` is the
analogous expression in `tailLossSpins`; when the denominator vanishes
(`spins = 0`) the tail spin counters are themselves `0` — so the JS
computation is `0/0 = NaN`, turned into `0` by the `|| 0` guard, never a
non-zero-over-zero infinity — and both rates are `0`. -/
theorem c9_tail_rates (settings : SimulationSettings)
    (runCount baseSeed : Nat) (ts : TailSummary)
    (h : (simulationData settings runCount baseSeed).tailSummary = some ts) :
    ts.winRate
      = 100 * ((batchLoop settings baseSeed (max runCount 1)).tailWinSpins : ℚ)
        / ((ts.count : ℚ) * (settings.spins : ℚ)) ∧
    ts.lossRate
      = 100 * ((batchLoop settings baseSeed (max runCount 1)).tailLossSpins : ℚ)
        / ((ts.count : ℚ) * (settings.spins : ℚ)) ∧
    (settings.spins = 0 →
      (batchLoop settings baseSeed (max runCount 1)).tailWinSpins = 0 ∧
      (batchLoop settings baseSeed (max runCount 1)).tailLossSpins = 0 ∧
      ts.winRate = 0 ∧ ts.lossRate = 0) := by
  obtain ⟨hlen, hacc, hagg, hsplit, hdisp, htail⟩ :=
    batchLoop_inv settings baseSeed (max runCount 1)
  unfold simulationData at h
  dsimp only at h
  split at h
  · split at h
    · rw [Option.some.injEq] at h
      subst h
      refine ⟨?_, ?_, fun hz => ?_⟩
      · unfold tailRate
        push_cast
        ring
      · unfold tailRate
        push_cast
        ring
      · obtain ⟨hw, hl, hf⟩ := htail hz
        refine ⟨hw, hl, ?_, ?_⟩
        · unfold tailRate
          rw [hw]
          push_cast
          ring
        · unfold tailRate
          rw [hl]
          push_cast
          ring
    · exact absurd h (by simp)
  · exact absurd h (by simp)

/-! ## Witnesses -/

/-- Concrete tail summary for a zero-spin batch, used by the C9 witness:
with `spins = 0` every run contributes nothing to the tail counters, so the
tail record carries zero totals and zero rates. -/
lemma tailSummary_spins_zero (settings : SimulationSettings)
    (runCount baseSeed : Nat) (hz : settings.spins = 0)
    (hr : 100 < max runCount 1) :
    (simulationData settings runCount baseSeed).tailSummary
      = some ⟨max runCount 1 - 100, 0, 0, 0⟩ := by
  obtain ⟨hlen, hacc, hagg, hsplit, hdisp, htail⟩ :=
    batchLoop_inv settings baseSeed (max runCount 1)
  obtain ⟨hw, hl, hf⟩ := htail hz
  unfold simulationData
  dsimp only
  rw [hdisp, hw, hl, hf]
  unfold MAX_DISPLAY_RUNS
  rw [if_pos (by omega : min (max runCount 1) 100 < max runCount 1)]
  rw [if_pos (by omega : 0 < max runCount 1 - min (max runCount 1) 100)]
  have hmin : min (max runCount 1) 100 = 100 := by omega
  rw [hmin]
  simp [tailRate]

/-- Witness for C2 at `settings = slot {spins := 1, betSize := 1, steady}`,
`runCount = 1`, `baseSeed = 0`. -/
theorem c2_batch_fold_witness :
    1 ≤ 1 ∧
    ((simulationData (.slot ⟨1, 1, .steady⟩) 1 0).totalFinal
        = ((List.range 1).map
            (fun j => (runAt (.slot ⟨1, 1, .steady⟩) 0 j).summary.finalNet)).sum ∧
      (simulationData (.slot ⟨1, 1, .steady⟩) 1 0).totalFinal
        = ((simulationData (.slot ⟨1, 1, .steady⟩) 1 0).displayRuns.map
            (fun line => line.summary.finalNet)).sum
          + (batchLoop (.slot ⟨1, 1, .steady⟩) 0 1).tailFinalSum ∧
      (simulationData (.slot ⟨1, 1, .steady⟩) 1 0).meanLine
        = (List.range ((SimulationSettings.slot ⟨1, 1, .steady⟩).spins + 1)).map
            (fun i =>
              ((List.range 1).map
                (fun j => (runAt (.slot ⟨1, 1, .steady⟩) 0 j).points.getD i 0)).sum
                / ((1 : Nat) : ℚ))) :=
  ⟨by decide, c2_batch_fold (.slot ⟨1, 1, .steady⟩) 1 0 (by decide)⟩

/-- Witness for C4 at `betSize = 2`, `roll = 7/10` (which samples the
breakeven multiplier `1` from the balanced table), starting from the
initial spin state. -/
theorem c4_slot_spin_witness :
    (1 : ℚ) = randomFromDistribution (slotProfiles .balanced) (7 / 10) ∧
    (0 : ℚ) = 2 * 1 - 2 ∧
    ((slotSpinStep 2 (slotProfiles .balanced) (7 / 10) initSpinState).net
        = initSpinState.net + 0 ∧
      ((slotSpinStep 2 (slotProfiles .balanced) (7 / 10) initSpinState).winSpins
          = initSpinState.winSpins + 1 ↔ (0 : ℚ) < 0) ∧
      ((slotSpinStep 2 (slotProfiles .balanced) (7 / 10) initSpinState).loseSpins
          = initSpinState.loseSpins + 1 ↔ ¬(0 : ℚ) < 0) ∧
      ((1 : ℚ) = 1 → (0 : ℚ) = 0 ∧
        (slotSpinStep 2 (slotProfiles .balanced) (7 / 10) initSpinState).loseSpins
          = initSpinState.loseSpins + 1)) :=
  ⟨by norm_num [randomFromDistribution, walkOutcomes, slotProfiles],
   by norm_num,
   c4_slot_spin_classification 2 (7 / 10) 1 0 (slotProfiles .balanced)
     initSpinState
     (by norm_num [randomFromDistribution, walkOutcomes, slotProfiles])
     (by norm_num)⟩

/-- Witness for C5 at `betSize = 3`, `roll = 1/2` against the even-money
bet (`probability 18/37`), a losing spin. -/
theorem c5_roulette_spin_witness :
    false = decide ((1 / 2 : ℚ) ≤ (rouletteBets .evenMoney).probability) ∧
    (-3 : ℚ) = (if false then (3 : ℚ) * ((rouletteBets .evenMoney).multiplier - 1)
        else -3) ∧
    ((rouletteSpinStep 3 (rouletteBets .evenMoney) (1 / 2) initSpinState).net
        = initSpinState.net + -3 ∧
      ((rouletteSpinStep 3 (rouletteBets .evenMoney) (1 / 2)
            initSpinState).winSpins
          = initSpinState.winSpins + 1
        ↔ (1 / 2 : ℚ) ≤ (rouletteBets .evenMoney).probability) ∧
      ((rouletteSpinStep 3 (rouletteBets .evenMoney) (1 / 2)
            initSpinState).loseSpins
          = initSpinState.loseSpins + 1
        ↔ ¬(1 / 2 : ℚ) ≤ (rouletteBets .evenMoney).probability) ∧
      (false = true → (-3 : ℚ) = 3 * ((rouletteBets .evenMoney).multiplier - 1)) ∧
      (false = false → (-3 : ℚ) = -3)) := by
  have hw : false = decide ((1 / 2 : ℚ) ≤ (rouletteBets .evenMoney).probability) := by
    symm
    rw [decide_eq_false_iff_not]
    norm_num [rouletteBets]
  exact ⟨hw, by norm_num,
    c5_roulette_spin 3 (1 / 2) (-3) (rouletteBets .evenMoney) initSpinState
      false hw (by norm_num)⟩

/-- Witness for C8 at `b1 = 42`, `b2 = 7`, `i = 5`. -/
theorem c8_seed_derivation_witness :
    ((42 : Nat) < 4294967296 ∧ (7 : Nat) < 4294967296) ∧
    (seedForIndex 42 5 = (42 + 5 * 9973) % 4294967296 ∧
      (seedForIndex 42 0 = seedForIndex 7 0 → 42 = 7)) :=
  ⟨⟨by norm_num, by norm_num⟩,
   c8_seed_derivation 42 7 5 (by norm_num) (by norm_num)⟩

/-- Witness for C9 at a zero-spin slot batch of 101 runs, whose tail
summary exists and carries count 1 and zero totals and rates. -/
theorem c9_tail_rates_witness :
    (simulationData (.slot ⟨0, 1, .balanced⟩) 101 0).tailSummary
        = some ⟨1, 0, 0, 0⟩ ∧
    ((⟨1, 0, 0, 0⟩ : TailSummary).winRate
        = 100 * ((batchLoop (.slot ⟨0, 1, .balanced⟩) 0
              (max 101 1)).tailWinSpins : ℚ)
          / (((⟨1, 0, 0, 0⟩ : TailSummary).count : ℚ)
              * ((SimulationSettings.slot ⟨0, 1, .balanced⟩).spins : ℚ)) ∧
      (⟨1, 0, 0, 0⟩ : TailSummary).lossRate
        = 100 * ((batchLoop (.slot ⟨0, 1, .balanced⟩) 0
              (max 101 1)).tailLossSpins : ℚ)
          / (((⟨1, 0, 0, 0⟩ : TailSummary).count : ℚ)
              * ((SimulationSettings.slot ⟨0, 1, .balanced⟩).spins : ℚ)) ∧
      ((SimulationSettings.slot ⟨0, 1, .balanced⟩).spins = 0 →
        (batchLoop (.slot ⟨0, 1, .balanced⟩) 0 (max 101 1)).tailWinSpins = 0 ∧
        (batchLoop (.slot ⟨0, 1, .balanced⟩) 0 (max 101 1)).tailLossSpins = 0 ∧
        (⟨1, 0, 0, 0⟩ : TailSummary).winRate = 0 ∧
        (⟨1, 0, 0, 0⟩ : TailSummary).lossRate = 0)) := by
  have h : (simulationData (.slot ⟨0, 1, .balanced⟩) 101 0).tailSummary
      = some ⟨1, 0, 0, 0⟩ := by
    have ht := tailSummary_spins_zero (.slot ⟨0, 1, .balanced⟩) 101 0 rfl
      (by norm_num)
    norm_num at ht
    exact ht
  exact ⟨h, c9_tail_rates (.slot ⟨0, 1, .balanced⟩) 101 0 ⟨1, 0, 0, 0⟩ h⟩

end GamblingSim
